import Mathlib

set_option maxHeartbeats 1000000
set_option maxRecDepth 8000

/-
Verification of the multi-strategy technical-signal and backtest-evaluation
kernel (server/strategies/performance_tools.py).

Shallow embedding conventions:
- A pandas float Series is a Lean list.  A value that pandas would hold as
  NaN (warm-up rows, undefined first difference, ...) is modelled as
  Option: none = NaN.  Where the source can produce IEEE infinities
  (division of a nonzero float by zero), the small inductive FVal models
  the full float value lattice nan / +inf / -inf / finite exactly.
- Exact rational arithmetic stands in for float arithmetic; the only
  irrational primitive the source uses is sqrt (volatility, Bollinger
  bands), modelled with Real.sqrt over ℝ.
- The Signal column holds None / "BUY" / "SELL"; Sig.hold models None.
- Raising an exception is modelled by returning none.
- Per the data model (spec section 3), Close > 0 on valid inputs, which
  keeps rational division aligned with float division in pct_change.
-/

/-- Discrete signal of a single row: the source stores None, "BUY" or
"SELL" in the Signal column; hold models None / no signal. -/
inductive Sig where
  | buy : Sig
  | sell : Sig
  | hold : Sig
deriving DecidableEq, Repr

/-- Self-contained positional lookup (list.get? with our own lemma set). -/
def idx? {α : Type} : List α → ℕ → Option α
  | [], _ => none
  | x :: _, 0 => some x
  | _ :: xs, t + 1 => idx? xs t

/-- Comparison of two possibly-NaN values: pandas "a > b" is False whenever
either side is NaN. -/
def gtO (a b : Option ℚ) : Bool :=
  match a, b with
  | some x, some y => decide (y < x)
  | _, _ => false

/-- NaN-aware less-or-equal, False when either side is NaN. -/
def leO (a b : Option ℚ) : Bool :=
  match a, b with
  | some x, some y => decide (x ≤ y)
  | _, _ => false

/-- NaN-aware strictly-less, False when either side is NaN. -/
def ltO (a b : Option ℚ) : Bool :=
  match a, b with
  | some x, some y => decide (x < y)
  | _, _ => false

/-- NaN-aware greater-or-equal, False when either side is NaN. -/
def geO (a b : Option ℚ) : Bool :=
  match a, b with
  | some x, some y => decide (y ≤ x)
  | _, _ => false

/-- NaN-propagating product of two series entries. -/
def mulO (a b : Option ℚ) : Option ℚ :=
  match a, b with
  | some x, some y => some (x * y)
  | _, _ => none

/-- Tail of pandas pct_change: value[t] / value[t-1] - 1 for each element,
threading the previous element. -/
def pctChangeAux : ℚ → List ℚ → List (Option ℚ)
  | _, [] => []
  | prev, x :: xs => some (x / prev - 1) :: pctChangeAux x xs

/-- pandas Series.pct_change(): first entry NaN, then c[t]/c[t-1] - 1
(source line 31: data["Close"].pct_change(), and line 73 on trade rows). -/
def pct_change : List ℚ → List (Option ℚ)
  | [] => []
  | x :: xs => none :: pctChangeAux x xs

/-- Raw position of one signal row (source lines 34-36): +1 on BUY, -1 on
SELL, and 0 replaced by NaN before the forward fill (line 39), so HOLD
carries no value of its own. -/
def rawPosition (s : Sig) : Option ℤ :=
  match s with
  | .buy => some 1
  | .sell => some (-1)
  | .hold => none

/-- Forward fill of the raw positions with accumulator: each row keeps its
own explicit position or inherits the previous one. -/
def positionsAux : ℤ → List Sig → List ℤ
  | _, [] => []
  | prev, s :: rest => ((rawPosition s).getD prev) :: positionsAux ((rawPosition s).getD prev) rest

/-- Position column (source lines 34-39): replace(0, nan).ffill().fillna(0),
i.e. forward fill starting from flat (0). -/
def positions (sigs : List Sig) : List ℤ := positionsAux 0 sigs

/-- Tail of Series.shift(1): previous element threaded along. -/
def shift1Aux {α : Type} : α → List α → List (Option α)
  | _, [] => []
  | prev, x :: xs => some prev :: shift1Aux x xs

/-- pandas Series.shift(1): first entry NaN, the rest moved down one row. -/
def shift1 {α : Type} : List α → List (Option α)
  | [] => []
  | x :: xs => none :: shift1Aux x xs

/-- Strategy_Return column (source line 42):
Position.shift(1) * Daily_Return, NaN when either factor is NaN. -/
def strategy_returns (closes : List ℚ) (sigs : List Sig) : List (Option ℚ) :=
  List.zipWith mulO (shift1 ((positions sigs).map (fun z : ℤ => (z : ℚ)))) (pct_change closes)

/-- Replace NaN by 0 (source lines 45-46: .fillna(0) before cumprod). -/
def fillna0 (l : List (Option ℚ)) : List ℚ := l.map (fun o => o.getD 0)

/-- Running product of (1 + x) with accumulator. -/
def cumProdAux : ℚ → List ℚ → List ℚ
  | _, [] => []
  | acc, x :: xs => (acc * (1 + x)) :: cumProdAux (acc * (1 + x)) xs

/-- Cumulative return curve (source lines 45-46):
(1 + returns.fillna(0)).cumprod(). -/
def cumulativeReturns (l : List (Option ℚ)) : List ℚ := cumProdAux 1 (fillna0 l)

/-- Running maximum with accumulator. -/
def cummaxAux : ℚ → List ℚ → List ℚ
  | _, [] => []
  | m, x :: xs => (max m x) :: cummaxAux (max m x) xs

/-- pandas Series.cummax() (source lines 62, 66). -/
def cummax : List ℚ → List ℚ
  | [] => []
  | x :: xs => x :: cummaxAux x xs

/-- Drawdown curve (source lines 63, 67): (cum - cummax) / cummax.  The
first cumulative value is 1 (first return is NaN, filled with 0), so the
running maximum is at least 1 and the division never hits zero. -/
def drawdownList (cum : List ℚ) : List ℚ :=
  List.zipWith (fun c m => (c - m) / m) cum (cummax cum)

/-- pandas Series.min() over a nonempty series (source lines 64, 68); the
empty case is unreachable because the evaluator errors out on empty data
before reaching it. -/
def seriesMin : List ℚ → ℚ
  | [] => 0
  | x :: xs => xs.foldl min x

/-- pandas Series.mean(): NaN entries are skipped; all-NaN gives NaN. -/
def meanOpt (l : List (Option ℚ)) : Option ℚ :=
  if (l.filterMap id).length = 0 then none
  else some ((l.filterMap id).sum / ((l.filterMap id).length : ℚ))

/-- pandas Series.var(ddof=1) over the non-NaN entries: NaN when fewer than
two values are present, matching Series.std() squared. -/
def svarOpt (l : List (Option ℚ)) : Option ℚ :=
  if (l.filterMap id).length < 2 then none
  else some
    (((l.filterMap id).map
        (fun x => (x - (l.filterMap id).sum / ((l.filterMap id).length : ℚ)) ^ 2)).sum
      / (((l.filterMap id).length : ℚ) - 1))

/-- Annualized volatility (source lines 54-55): Series.std() * sqrt(252),
i.e. sqrt(sample variance) * sqrt(252); NaN when the std is NaN. -/
noncomputable def annVol (l : List (Option ℚ)) : Option ℝ :=
  (svarOpt l).map (fun v : ℚ => Real.sqrt (v : ℝ) * Real.sqrt 252)

/-- Sharpe ratio (source lines 58-59): mean * 252 / volatility when the
volatility is strictly positive, else 0; a NaN volatility fails the
Python "> 0" test and also yields 0. -/
noncomputable def sharpeRatio (l : List (Option ℚ)) : ℝ :=
  match annVol l, meanOpt l with
  | some vol, some m => if 0 < vol then ((m : ℝ) * 252) / vol else 0
  | _, _ => 0

/-- Rows whose Signal is BUY or SELL (source line 71: isin(["BUY","SELL"])). -/
def isTrade (s : Sig) : Bool := s = Sig.buy || s = Sig.sell

/-- Close prices of the trade rows, in order (source line 71). -/
def tradeCloses (closes : List ℚ) (sigs : List Sig) : List ℚ :=
  (List.zip closes sigs).filterMap (fun p => if isTrade p.2 then some p.1 else none)

/-- Trading statistics (source lines 70-81): win_rate, total_trades and
avg_trade_return from pct_change over consecutive trade rows; fewer than
two trade rows give (0, 0, 0). -/
def tradeStats (closes : List ℚ) (sigs : List Sig) : ℚ × ℕ × ℚ :=
  if 1 < (tradeCloses closes sigs).length then
    (if 0 < (tradeCloses closes sigs).length - 1 then
        ((((pct_change (tradeCloses closes sigs)).filterMap id).countP
            (fun x => decide (0 < x)) : ℚ)
          / (((tradeCloses closes sigs).length - 1 : ℕ) : ℚ))
      else 0,
     (tradeCloses closes sigs).length - 1,
     (meanOpt (pct_change (tradeCloses closes sigs))).getD 0)
  else (0, 0, 0)

/-- The PerformanceMetrics dictionary (source lines 83-97).  Volatilities
may be NaN (Option); Sharpe ratios are always numbers (the guard maps the
degenerate cases to 0). -/
structure PerfMetrics where
  strategy_return : ℚ
  buyhold_return : ℚ
  excess_return : ℚ
  strategy_volatility : Option ℝ
  buyhold_volatility : Option ℝ
  strategy_sharpe : ℝ
  buyhold_sharpe : ℝ
  strategy_max_drawdown : ℚ
  buyhold_max_drawdown : ℚ
  win_rate : ℚ
  total_trades : ℕ
  avg_trade_return : ℚ
  trading_days : ℕ

/-- calculate_strategy_performance_metrics (source lines 26-97).  On an
empty price series the source raises IndexError at line 49
(Cumulative_Strategy.iloc[-1] on an empty series); none models that
raise.  Otherwise every metric of lines 83-97 is assembled. -/
noncomputable def calculate_strategy_performance_metrics
    (closes : List ℚ) (sigs : List Sig) : Option PerfMetrics :=
  if closes = [] then none
  else
    some
      { strategy_return :=
          (cumulativeReturns (strategy_returns closes sigs)).getLastD 1 - 1
        buyhold_return := (cumulativeReturns (pct_change closes)).getLastD 1 - 1
        excess_return :=
          ((cumulativeReturns (strategy_returns closes sigs)).getLastD 1 - 1)
            - ((cumulativeReturns (pct_change closes)).getLastD 1 - 1)
        strategy_volatility := annVol (strategy_returns closes sigs)
        buyhold_volatility := annVol (pct_change closes)
        strategy_sharpe := sharpeRatio (strategy_returns closes sigs)
        buyhold_sharpe := sharpeRatio (pct_change closes)
        strategy_max_drawdown :=
          seriesMin (drawdownList (cumulativeReturns (strategy_returns closes sigs)))
        buyhold_max_drawdown :=
          seriesMin (drawdownList (cumulativeReturns (pct_change closes)))
        win_rate := (tradeStats closes sigs).1
        total_trades := (tradeStats closes sigs).2.1
        avg_trade_return := (tradeStats closes sigs).2.2
        trading_days := closes.length }

/-- Window of the last w values ending at index t (defined when w <= t+1). -/
def windowAt (l : List ℚ) (w t : ℕ) : List ℚ := (l.drop (t + 1 - w)).take w

/-- pandas Series.rolling(window=w).mean() with the default
min_periods = w: NaN for the first w-1 rows, then the window average
(source lines 165, 236, 427-428, 437, 521-522).  The source never calls
it with w = 0 (pandas would reject that window). -/
def rollingMean (l : List ℚ) (w : ℕ) : List (Option ℚ) :=
  (List.range l.length).map (fun t =>
    if w ≤ t + 1 then some ((windowAt l w t).sum / (w : ℚ)) else none)

/-- pandas Series.rolling(window=w).std(), squared: the sample variance
(ddof = 1) of each full window; NaN during warm-up and for w < 2, where
the 1/(w-1) factor degenerates (source lines 166, 237, 438). -/
def rollingVar (l : List ℚ) (w : ℕ) : List (Option ℚ) :=
  (List.range l.length).map (fun t =>
    if w ≤ t + 1 ∧ 2 ≤ w then
      some
        (((windowAt l w t).map
            (fun x => (x - (windowAt l w t).sum / (w : ℚ)) ^ 2)).sum
          / ((w : ℚ) - 1))
    else none)

/-- IEEE-754 float value lattice as the source observes it: NaN, the two
infinities, or a finite value.  Signed zero is irrelevant here (ℚ and ℝ
have a single 0; numerators decide the sign of an infinite quotient,
matching a positive IEEE zero divisor as produced by the source). -/
inductive FVal (α : Type) where
  | nan : FVal α
  | pinf : FVal α
  | ninf : FVal α
  | fin : α → FVal α
deriving DecidableEq

/-- IEEE float negation. -/
def FVal.neg {α : Type} [LinearOrderedField α] : FVal α → FVal α
  | .nan => .nan
  | .pinf => .ninf
  | .ninf => .pinf
  | .fin a => .fin (-a)

/-- IEEE float addition: NaN propagates; opposite infinities give NaN. -/
def FVal.add {α : Type} [LinearOrderedField α] : FVal α → FVal α → FVal α
  | .nan, _ => .nan
  | _, .nan => .nan
  | .pinf, .ninf => .nan
  | .ninf, .pinf => .nan
  | .pinf, _ => .pinf
  | _, .pinf => .pinf
  | .ninf, _ => .ninf
  | _, .ninf => .ninf
  | .fin a, .fin b => .fin (a + b)

/-- IEEE float subtraction. -/
def FVal.sub {α : Type} [LinearOrderedField α] (x y : FVal α) : FVal α :=
  x.add y.neg

/-- IEEE float multiplication: NaN propagates; infinity times zero is NaN. -/
def FVal.mul {α : Type} [LinearOrderedField α] : FVal α → FVal α → FVal α
  | .nan, _ => .nan
  | _, .nan => .nan
  | .pinf, .pinf => .pinf
  | .pinf, .ninf => .ninf
  | .ninf, .pinf => .ninf
  | .ninf, .ninf => .pinf
  | .pinf, .fin b => if b = 0 then .nan else if 0 < b then .pinf else .ninf
  | .ninf, .fin b => if b = 0 then .nan else if 0 < b then .ninf else .pinf
  | .fin a, .pinf => if a = 0 then .nan else if 0 < a then .pinf else .ninf
  | .fin a, .ninf => if a = 0 then .nan else if 0 < a then .ninf else .pinf
  | .fin a, .fin b => .fin (a * b)

/-- IEEE float division as numpy performs it on float series: 0/0 is NaN,
a nonzero value over 0 is a signed infinity, a finite value over an
infinity is 0, infinity over infinity is NaN. -/
def FVal.div {α : Type} [LinearOrderedField α] : FVal α → FVal α → FVal α
  | .nan, _ => .nan
  | _, .nan => .nan
  | .pinf, .pinf => .nan
  | .pinf, .ninf => .nan
  | .ninf, .pinf => .nan
  | .ninf, .ninf => .nan
  | .pinf, .fin b => if 0 ≤ b then .pinf else .ninf
  | .ninf, .fin b => if 0 ≤ b then .ninf else .pinf
  | .fin _, .pinf => .fin 0
  | .fin _, .ninf => .fin 0
  | .fin a, .fin b =>
    if b = 0 then (if a = 0 then .nan else if 0 < a then .pinf else .ninf)
    else .fin (a / b)

/-- IEEE comparison value > c: False for NaN, True for +inf. -/
def FVal.gtv {α : Type} [LinearOrderedField α] : FVal α → α → Bool
  | .nan, _ => false
  | .pinf, _ => true
  | .ninf, _ => false
  | .fin a, c => decide (c < a)

/-- IEEE comparison value < c: False for NaN, True for -inf. -/
def FVal.ltv {α : Type} [LinearOrderedField α] : FVal α → α → Bool
  | .nan, _ => false
  | .pinf, _ => false
  | .ninf, _ => true
  | .fin a, c => decide (a < c)

/-- Bollinger rolling standard deviation as a real series (source line 237):
sqrt of the rolling sample variance. -/
noncomputable def bollingerStd (closes : List ℚ) (window : ℕ) : List (Option ℝ) :=
  (rollingVar closes window).map (Option.map (fun v : ℚ => Real.sqrt (v : ℝ)))

/-- Upper Bollinger band (source line 238): rolling mean + num_std * std. -/
noncomputable def upper_band (closes : List ℚ) (window : ℕ) (num_std : ℚ) :
    List (Option ℝ) :=
  List.zipWith
    (fun mo so =>
      match mo, so with
      | some m, some s => some ((m : ℝ) + (num_std : ℝ) * s)
      | _, _ => none)
    (rollingMean closes window) (bollingerStd closes window)

/-- Lower Bollinger band (source line 239): rolling mean - num_std * std. -/
noncomputable def lower_band (closes : List ℚ) (window : ℕ) (num_std : ℚ) :
    List (Option ℝ) :=
  List.zipWith
    (fun mo so =>
      match mo, so with
      | some m, some s => some ((m : ℝ) - (num_std : ℝ) * s)
      | _, _ => none)
    (rollingMean closes window) (bollingerStd closes window)

/-- percent_b (source line 242): (close - lower) / (upper - lower), with
the full float semantics of the division: NaN bands give NaN, a zero-width
band gives 0/0 = NaN when close sits on the band and a signed infinity
otherwise.  The source has no 0.5 guard here. -/
noncomputable def percent_b (closes : List ℚ) (window : ℕ) (num_std : ℚ) :
    List (FVal ℝ) :=
  (List.range closes.length).map (fun t =>
    match (lower_band closes window num_std).getD t none,
        (upper_band closes window num_std).getD t none with
    | some lo, some up =>
        FVal.div (FVal.fin ((closes.getD t 0 : ℝ) - lo)) (FVal.fin (up - lo))
    | _, _ => FVal.nan)

/-- bb_score (source line 245): (0.5 - percent_b) * 100. -/
noncomputable def bb_score (closes : List ℚ) (window : ℕ) (num_std : ℚ) :
    List (FVal ℝ) :=
  (percent_b closes window num_std).map
    (fun pb => FVal.mul (FVal.sub (FVal.fin (1 / 2 : ℝ)) pb) (FVal.fin 100))

/-- Row signals of the Bollinger-Fibonacci generator (source lines 249-251):
BUY where bb_score > 25, SELL where bb_score < -25, otherwise the Signal
cell stays None (hold); NaN scores satisfy neither comparison. -/
noncomputable def bbSignals (closes : List ℚ) (window : ℕ) (num_std : ℚ) :
    List Sig :=
  (bb_score closes window num_std).map (fun sc =>
    if FVal.gtv sc 25 then Sig.buy
    else if FVal.ltv sc (-25) then Sig.sell
    else Sig.hold)

/-- Current %B of the report (source line 261): the last percent_b entry,
defaulting to 0.5 when that entry is NaN. -/
noncomputable def current_percent_b (closes : List ℚ) (window : ℕ)
    (num_std : ℚ) : FVal ℝ :=
  match (percent_b closes window num_std).getLastD FVal.nan with
  | .nan => FVal.fin (1 / 2 : ℝ)
  | v => v

/-- Current BB score of the report (source line 260): the last bb_score
entry, defaulting to 0 when that entry is NaN. -/
noncomputable def current_bb_score (closes : List ℚ) (window : ℕ)
    (num_std : ℚ) : FVal ℝ :=
  match (bb_score closes window num_std).getLastD FVal.nan with
  | .nan => FVal.fin 0
  | v => v

/-- Current signal of the Bollinger-Fibonacci report (source line 262). -/
noncomputable def bbCurrentSignal (closes : List ℚ) (window : ℕ)
    (num_std : ℚ) : Sig :=
  if FVal.gtv (current_bb_score closes window num_std) 25 then Sig.buy
  else if FVal.ltv (current_bb_score closes window num_std) (-25) then Sig.sell
  else Sig.hold

/-- Tail of pandas Series.diff(): x[t] - x[t-1]. -/
def diffAux : ℚ → List ℚ → List (Option ℚ)
  | _, [] => []
  | prev, x :: xs => some (x - prev) :: diffAux x xs

/-- pandas Series.diff() (source line 426): NaN first, then differences. -/
def diffList : List ℚ → List (Option ℚ)
  | [] => []
  | x :: xs => none :: diffAux x xs

/-- Positive part of the deltas (source line 427):
delta.where(delta > 0, 0); the NaN first delta fails the test and becomes
0, exactly as in pandas. -/
def gains (l : List ℚ) : List ℚ :=
  (diffList l).map (fun o =>
    match o with
    | some d => if 0 < d then d else 0
    | none => 0)

/-- Negated negative part of the deltas (source line 428):
(-delta.where(delta < 0, 0)). -/
def losses (l : List ℚ) : List ℚ :=
  (diffList l).map (fun o =>
    match o with
    | some d => if d < 0 then -d else 0
    | none => 0)

/-- Rolling average gain (source line 427). -/
def avg_gain (l : List ℚ) (p : ℕ) : List (Option ℚ) := rollingMean (gains l) p

/-- Rolling average loss (source line 428). -/
def avg_loss (l : List ℚ) (p : ℕ) : List (Option ℚ) := rollingMean (losses l) p

/-- price_rsi (source lines 429-430): rs = gain / loss and
rsi = 100 - 100 / (1 + rs), under float semantics: a NaN rolling mean
gives NaN; loss = 0 with a positive gain gives rs = +inf hence rsi = 100;
gain = loss = 0 gives rs = NaN hence rsi = NaN. -/
def price_rsi (l : List ℚ) (p : ℕ) : List (FVal ℚ) :=
  List.zipWith
    (fun go lo =>
      match go, lo with
      | some g, some ls =>
          FVal.sub (FVal.fin 100)
            (FVal.div (FVal.fin 100)
              (FVal.add (FVal.fin 1) (FVal.div (FVal.fin g) (FVal.fin ls))))
      | _, _ => FVal.nan)
    (avg_gain l p) (avg_loss l p)

/-- Python str.upper() for the ASCII strategy selector of source line 517
(character-wise upper-casing of the string). -/
def upperStr (s : String) : String := String.mk (s.data.map Char.toUpper)

/-- The string "EMA" (the ma_type selector value of source line 517). -/
def emaStr : String := "EMA"

/-- The string "SMA". -/
def smaStr : String := "SMA"

/-- Tail of ewm(span, adjust=False).mean():
e[t] = alpha * x[t] + (1 - alpha) * e[t-1]. -/
def emaAux (alpha : ℚ) : ℚ → List ℚ → List ℚ
  | _, [] => []
  | prev, x :: xs =>
    (alpha * x + (1 - alpha) * prev) :: emaAux alpha (alpha * x + (1 - alpha) * prev) xs

/-- pandas ewm(span=p, adjust=False).mean() (source lines 518-519):
recursive smoothing with alpha = 2 / (span + 1), seeded at the first value. -/
def emaList (l : List ℚ) (span : ℕ) : List ℚ :=
  match l with
  | [] => []
  | x :: xs => x :: emaAux (2 / ((span : ℚ) + 1)) x xs

/-- Moving-average selector of the Dual MA tool (source lines 517-522):
EMA when ma_type.upper() == "EMA", otherwise SMA (rolling mean). -/
def maList (maType : String) (closes : List ℚ) (p : ℕ) : List (Option ℚ) :=
  if upperStr maType = emaStr then (emaList closes p).map some
  else rollingMean closes p

/-- Crossover signals of the Dual MA generator (source lines 528-536):
BUY exactly on a golden cross (short > long today, short <= long
yesterday), SELL exactly on a death cross (the mirror); yesterday means
shift(1), so comparisons against the missing previous row are False. -/
def dmaSignals (closes : List ℚ) (sp lp : ℕ) (maType : String) : List Sig :=
  (List.range closes.length).map (fun t =>
    if gtO ((maList maType closes sp).getD t none) ((maList maType closes lp).getD t none)
        && leO (if t = 0 then none else (maList maType closes sp).getD (t - 1) none)
          (if t = 0 then none else (maList maType closes lp).getD (t - 1) none) then
      Sig.buy
    else if ltO ((maList maType closes sp).getD t none) ((maList maType closes lp).getD t none)
        && geO (if t = 0 then none else (maList maType closes sp).getD (t - 1) none)
          (if t = 0 then none else (maList maType closes lp).getD (t - 1) none) then
      Sig.sell
    else Sig.hold)

/-- Last entry of a possibly-NaN series (iloc[-1]); none both for an empty
series (where the source would raise) and for a NaN last value. -/
def lastO (l : List (Option ℚ)) : Option ℚ :=
  match l.getLast? with
  | some v => v
  | none => none

/-- Current signal of the Dual MA report (source lines 554-570): LONG and
BUY when the last short MA exceeds the last long MA, else SHORT and SELL;
a NaN comparison falls through to SELL, and HOLD is never produced. -/
def dmaCurrentSignal (closes : List ℚ) (sp lp : ℕ) (maType : String) : Sig :=
  if gtO (lastO (maList maType closes sp)) (lastO (maList maType closes lp)) then Sig.buy
  else Sig.sell

/-- The string "BUY". -/
def buyStr : String := "BUY"

/-- The string "SELL". -/
def sellStr : String := "SELL"

/-- The string "HOLD". -/
def holdStr : String := "HOLD"

/-- The string "ERROR" (signal recorded for a strategy whose execution
raised, source lines 728-731). -/
def errorStr : String := "ERROR"

/-- The string "N/A" (signal recorded for an unregistered strategy or when
the regex finds no signal line, source lines 720-726). -/
def naStr : String := "N/A"

/-- Consensus recommendation (source lines 738-747). -/
inductive Rec where
  | recBuy : Rec
  | recSell : Rec
  | recHold : Rec
deriving DecidableEq, Repr

/-- Consensus recommendation over the extracted per-strategy signal
strings (source lines 738-747): BUY when buy_count > sell_count and
buy_count >= 2, SELL when sell_count > buy_count and sell_count >= 2,
otherwise HOLD (mixed signals). -/
def recommendation (sigs : List String) : Rec :=
  if sigs.countP (fun s => s == sellStr) < sigs.countP (fun s => s == buyStr)
      ∧ 2 ≤ sigs.countP (fun s => s == buyStr) then Rec.recBuy
  else if sigs.countP (fun s => s == buyStr) < sigs.countP (fun s => s == sellStr)
      ∧ 2 ≤ sigs.countP (fun s => s == sellStr) then Rec.recSell
  else Rec.recHold

/-- Outcome of dispatching one strategy in the comprehensive-analysis loop
(source lines 717-731): none when the strategy is not registered,
Except.error when calling it raised, Except.ok with the produced report
text otherwise. -/
def StratRun : Type := Option (Except String String)

/-- Signal string the aggregator records for one strategy outcome (source
lines 720-731): "N/A" for an unregistered strategy, "ERROR" when the call
raised, and otherwise the regex extraction from the report text (the
extraction, including its "N/A" fallback, is the abstract parameter). -/
def stratSignal (extract : String → String) : StratRun → String
  | none => naStr
  | some (Except.error _) => errorStr
  | some (Except.ok content) => extract content

/-- Signals of all dispatched strategies, one loop iteration each (source
lines 717-735): each entry is produced from its own outcome alone. -/
def runAll (extract : String → String) (runs : List StratRun) : List String :=
  runs.map (stratSignal extract)

/-- hold_count of the consensus tally (source line 740): only entries
whose signal string is exactly "HOLD" are counted. -/
def holdTally (signals : List String) : ℕ :=
  signals.countP (fun s => s == holdStr)

/-- A raised strategy execution, used to probe fault isolation. -/
def failedRun : StratRun := some (Except.error errorStr)

/-- Tail of the spec-side trade-return series: x / prev - 1 threaded. -/
def specTradeReturnsAux : ℚ → List ℚ → List ℚ
  | _, [] => []
  | prev, x :: xs => (x / prev - 1) :: specTradeReturnsAux x xs

/-- Trade returns exactly as the spec words them (section 4.6 step 10):
close[i] / close[i-1] - 1 over consecutive trade rows, one value per pair
of consecutive rows; the spec-side reformulation compared against the
evaluator's pct_change path. -/
def specTradeReturns : List ℚ → List ℚ
  | [] => []
  | x :: xs => specTradeReturnsAux x xs

/-
Lemma layer: positional reasoning over the embedded series.
-/

theorem idx?_map {α β : Type} (f : α → β) (l : List α) (t : ℕ) :
    idx? (l.map f) t = (idx? l t).map f := by
  induction l generalizing t with
  | nil => cases t <;> rfl
  | cons x xs ih => cases t with
    | zero => rfl
    | succ t => simpa [idx?] using ih t

theorem idx?_append {α : Type} (a b : List α) (t : ℕ) :
    idx? (a ++ b) t = if t < a.length then idx? a t else idx? b (t - a.length) := by
  induction a generalizing t with
  | nil => simp [idx?]
  | cons x xs ih =>
    cases t with
    | zero => simp [idx?]
    | succ t => simpa [idx?, Nat.succ_lt_succ_iff] using ih t

theorem idx?_range_map {α : Type} (f : ℕ → α) (n t : ℕ) :
    idx? ((List.range n).map f) t = if t < n then some (f t) else none := by
  induction n with
  | zero => simp [idx?]
  | succ n ih =>
    rw [List.range_succ, List.map_append, idx?_append]
    simp only [List.length_map, List.length_range]
    by_cases h : t < n
    · rw [if_pos h, ih, if_pos h, if_pos (by omega)]
    · rw [if_neg h]
      by_cases h2 : t = n
      · subst h2
        simp [idx?]
      · rw [if_neg (by omega)]
        have h3 : t - n = Nat.succ (t - n - 1) := by omega
        rw [h3]
        cases (t - n - 1) <;> rfl

theorem idx?_some_imp_lt {α : Type} {l : List α} {t : ℕ} {v : α}
    (h : idx? l t = some v) : t < l.length := by
  induction l generalizing t with
  | nil => simp [idx?] at h
  | cons x xs ih =>
    cases t with
    | zero => simp
    | succ t =>
      have := ih (t := t) (by simpa [idx?] using h)
      simpa [Nat.succ_lt_succ_iff] using this

theorem idx?_lt_length {α : Type} {l : List α} {t : ℕ} (h : t < l.length) :
    ∃ v, idx? l t = some v := by
  induction l generalizing t with
  | nil => simp at h
  | cons x xs ih =>
    cases t with
    | zero => exact ⟨x, rfl⟩
    | succ t => exact ih (by simpa [Nat.succ_lt_succ_iff] using h)

theorem getD_eq_idx? {α : Type} (l : List α) (t : ℕ) (d : α) :
    l.getD t d = (idx? l t).getD d := by
  induction l generalizing t with
  | nil => cases t <;> rfl
  | cons x xs ih => cases t with
    | zero => rfl
    | succ t => simpa [idx?] using ih t

theorem idx?_replicate {α : Type} (n : ℕ) (c : α) (t : ℕ) :
    idx? (List.replicate n c) t = if t < n then some c else none := by
  induction n generalizing t with
  | zero => simp [idx?]
  | succ n ih =>
    cases t with
    | zero => simp [List.replicate, idx?]
    | succ t =>
      simp only [List.replicate, idx?, ih, Nat.succ_lt_succ_iff]

theorem idx?_zipWith {α β γ : Type} (f : α → β → γ) (a : List α) (b : List β) (t : ℕ) :
    idx? (List.zipWith f a b) t
      = Option.bind (idx? a t) (fun x => (idx? b t).map (f x)) := by
  induction a generalizing b t with
  | nil => simp [idx?]
  | cons x xs ih =>
    cases b with
    | nil => cases t <;> simp [idx?]
    | cons y ys =>
      cases t with
      | zero => rfl
      | succ t => simpa [idx?] using ih ys t

theorem idx?_set_ne {α : Type} (l : List α) (i j : ℕ) (v : α) (h : j ≠ i) :
    idx? (l.set i v) j = idx? l j := by
  induction l generalizing i j with
  | nil => simp
  | cons x xs ih =>
    cases i with
    | zero => cases j with
      | zero => omega
      | succ j => rfl
    | succ i =>
      cases j with
      | zero => rfl
      | succ j => simpa [List.set, idx?] using ih i j (by omega)

theorem idx?_set_self {α : Type} (l : List α) (i : ℕ) (v : α) (h : i < l.length) :
    idx? (l.set i v) i = some v := by
  induction l generalizing i with
  | nil => simp at h
  | cons x xs ih =>
    cases i with
    | zero => rfl
    | succ i => simpa [List.set, idx?] using ih i (by simpa [Nat.succ_lt_succ_iff] using h)

theorem positionsAux_length (l : List Sig) : ∀ prev, (positionsAux prev l).length = l.length := by
  induction l with
  | nil => intro prev; rfl
  | cons s rest ih => intro prev; simpa [positionsAux] using ih _

theorem positions_length (sigs : List Sig) : (positions sigs).length = sigs.length :=
  positionsAux_length sigs 0

theorem shift1Aux_length {α : Type} (l : List α) : ∀ prev, (shift1Aux prev l).length = l.length := by
  induction l with
  | nil => intro prev; rfl
  | cons x xs ih => intro prev; simpa [shift1Aux] using ih _

theorem shift1_length {α : Type} (l : List α) : (shift1 l).length = l.length := by
  cases l with
  | nil => rfl
  | cons x xs => simpa [shift1] using shift1Aux_length xs x

theorem pctChangeAux_length (l : List ℚ) : ∀ prev, (pctChangeAux prev l).length = l.length := by
  induction l with
  | nil => intro prev; rfl
  | cons x xs ih => intro prev; simpa [pctChangeAux] using ih _

theorem pct_change_length (l : List ℚ) : (pct_change l).length = l.length := by
  cases l with
  | nil => rfl
  | cons x xs => simpa [pct_change] using pctChangeAux_length xs x

theorem shift1Aux_idx? {α : Type} (l : List α) :
    ∀ (prev : α) (t : ℕ), t < l.length →
      idx? (shift1Aux prev l) t = (idx? (prev :: l) t).map some := by
  induction l with
  | nil => intro prev t h; simp at h
  | cons x xs ih =>
    intro prev t h
    cases t with
    | zero => rfl
    | succ t =>
      have h2 : t < xs.length := by simpa using h
      simpa [shift1Aux, idx?] using ih x t h2

theorem shift1_idx?_zero {α : Type} (l : List α) (h : l ≠ []) :
    idx? (shift1 l) 0 = some none := by
  cases l with
  | nil => exact absurd rfl h
  | cons x xs => rfl

theorem shift1_idx?_succ {α : Type} (l : List α) (t : ℕ) (h : t + 1 < l.length) :
    idx? (shift1 l) (t + 1) = (idx? l t).map some := by
  cases l with
  | nil => simp at h
  | cons x xs =>
    have h2 : t < xs.length := by simpa using h
    have := shift1Aux_idx? xs x t h2
    simpa [shift1, idx?] using this

theorem pctChangeAux_idx? (l : List ℚ) :
    ∀ (prev : ℚ) (t : ℕ), t < l.length →
      idx? (pctChangeAux prev l) t
        = some (some (l.getD t 0 / ((prev :: l).getD t 0) - 1)) := by
  induction l with
  | nil => intro prev t h; simp at h
  | cons x xs ih =>
    intro prev t h
    cases t with
    | zero => rfl
    | succ t =>
      have h2 : t < xs.length := by simpa using h
      simpa [pctChangeAux, idx?] using ih x t h2

theorem pct_change_idx?_zero (l : List ℚ) (h : l ≠ []) :
    idx? (pct_change l) 0 = some none := by
  cases l with
  | nil => exact absurd rfl h
  | cons x xs => rfl

theorem pct_change_idx?_succ (l : List ℚ) (t : ℕ) (h : t + 1 < l.length) :
    idx? (pct_change l) (t + 1)
      = some (some (l.getD (t + 1) 0 / l.getD t 0 - 1)) := by
  cases l with
  | nil => simp at h
  | cons x xs =>
    have h2 : t < xs.length := by simpa using h
    have := pctChangeAux_idx? xs x t h2
    simpa [pct_change, idx?] using this

theorem positionsAux_set_lt (l : List Sig) :
    ∀ (prev : ℤ) (t : ℕ) (s : Sig) (u : ℕ), u < t →
      idx? (positionsAux prev (l.set t s)) u = idx? (positionsAux prev l) u := by
  induction l with
  | nil => intro prev t s u h; simp
  | cons x xs ih =>
    intro prev t s u h
    cases t with
    | zero => omega
    | succ t =>
      cases u with
      | zero => rfl
      | succ u =>
        simpa [List.set, positionsAux, idx?] using ih _ t s u (by omega)

theorem idx?_eq_none {α : Type} (l : List α) (t : ℕ) (h : l.length ≤ t) :
    idx? l t = none := by
  induction l generalizing t with
  | nil => rfl
  | cons x xs ih =>
    cases t with
    | zero => simp at h
    | succ t => simpa [idx?] using ih t (by simpa using h)

theorem mulO_none_left (b : Option ℚ) : mulO none b = none := by
  cases b <;> rfl

theorem mulO_none_right (a : Option ℚ) : mulO a none = none := by
  cases a <;> rfl

theorem strategy_returns_idx? (closes : List ℚ) (sigs : List Sig) (t : ℕ) :
    idx? (strategy_returns closes sigs) t
      = Option.bind (idx? (shift1 ((positions sigs).map (fun z : ℤ => (z : ℚ)))) t)
          (fun x => (idx? (pct_change closes) t).map (mulO x)) := by
  simpa [strategy_returns] using
    idx?_zipWith mulO (shift1 ((positions sigs).map (fun z : ℤ => (z : ℚ)))) (pct_change closes) t

/-- C1: in the backtest evaluator, the strategy return at bar t equals the
position held at bar t-1 times the daily return at bar t
(Strategy_Return = Position.shift(1) * Daily_Return, with the daily
return at bar t being close[t] / close[t-1] - 1); the strategy return at
the first bar is undefined (NaN) regardless of the signals; and changing
the signal at any bar t never changes the strategy return at any earlier
bar u < t (no look-ahead). -/
theorem C1_backtest_no_lookahead (closes : List ℚ) (sigs : List Sig)
    (hlen : sigs.length = closes.length) :
    (closes ≠ [] → idx? (strategy_returns closes sigs) 0 = some none)
    ∧ (∀ t p dr, idx? (positions sigs) t = some p →
        idx? (pct_change closes) (t + 1) = some (some dr) →
        idx? (strategy_returns closes sigs) (t + 1) = some (some ((p : ℚ) * dr)))
    ∧ (∀ t, t + 1 < closes.length →
        idx? (pct_change closes) (t + 1)
          = some (some (closes.getD (t + 1) 0 / closes.getD t 0 - 1)))
    ∧ (∀ t s u, u < t →
        idx? (strategy_returns closes (sigs.set t s)) u
          = idx? (strategy_returns closes sigs) u) := by
  have hml : ((positions sigs).map (fun z : ℤ => (z : ℚ))).length = closes.length := by
    rw [List.length_map, positions_length, hlen]
  refine ⟨?_, ?_, ?_, ?_⟩
  · intro hne
    have hs : (positions sigs).map (fun z : ℤ => (z : ℚ)) ≠ [] := by
      intro hnil
      rw [hnil] at hml
      exact hne (List.length_eq_zero.mp hml.symm)
    rw [strategy_returns_idx?, shift1_idx?_zero _ hs, pct_change_idx?_zero _ hne]
    rfl
  · intro t p dr hp hdr
    have hb : t + 1 < closes.length := by
      have h1 := idx?_some_imp_lt hdr
      rwa [pct_change_length] at h1
    have hlen2 : t + 1 < ((positions sigs).map (fun z : ℤ => (z : ℚ))).length := by
      rw [hml]; exact hb
    rw [strategy_returns_idx?, shift1_idx?_succ _ _ hlen2, idx?_map, hp, hdr]
    rfl
  · intro t ht
    exact pct_change_idx?_succ closes t ht
  · intro t s u hu
    have hml2 : ((positions (sigs.set t s)).map (fun z : ℤ => (z : ℚ))).length
        = closes.length := by
      rw [List.length_map, positions_length, List.length_set, hlen]
    rw [strategy_returns_idx?, strategy_returns_idx?]
    have hset : idx? (shift1 ((positions (sigs.set t s)).map (fun z : ℤ => (z : ℚ)))) u
        = idx? (shift1 ((positions sigs).map (fun z : ℤ => (z : ℚ)))) u := by
      cases u with
      | zero =>
        by_cases hc : closes.length = 0
        · rw [idx?_eq_none _ _ (by rw [shift1_length, hml2]; omega),
            idx?_eq_none _ _ (by rw [shift1_length, hml]; omega)]
        · have h1 : (positions (sigs.set t s)).map (fun z : ℤ => (z : ℚ)) ≠ [] := by
            apply List.length_pos.mp
            rw [hml2]; omega
          have h2 : (positions sigs).map (fun z : ℤ => (z : ℚ)) ≠ [] := by
            apply List.length_pos.mp
            rw [hml]; omega
          rw [shift1_idx?_zero _ h1, shift1_idx?_zero _ h2]
      | succ k =>
        by_cases hk : k + 1 < closes.length
        · rw [shift1_idx?_succ _ _ (by rw [hml2]; exact hk),
            shift1_idx?_succ _ _ (by rw [hml]; exact hk)]
          rw [idx?_map, idx?_map]
          have hpos : idx? (positions (sigs.set t s)) k = idx? (positions sigs) k :=
            positionsAux_set_lt sigs 0 t s k (by omega)
          rw [hpos]
        · rw [idx?_eq_none _ _ (by rw [shift1_length, hml2]; omega),
            idx?_eq_none _ _ (by rw [shift1_length, hml]; omega)]
    rw [hset]

/-- Witness for C1 on a concrete three-bar series: changing the signal at
bar 2 leaves the strategy return at bar 1 unchanged. -/
theorem C1_backtest_no_lookahead_witness :
    idx? (strategy_returns [100, 110, 121] ([Sig.buy, Sig.hold, Sig.hold].set 2 Sig.sell)) 1
      = idx? (strategy_returns [100, 110, 121] [Sig.buy, Sig.hold, Sig.hold]) 1 :=
  (C1_backtest_no_lookahead [100, 110, 121] [Sig.buy, Sig.hold, Sig.hold]
    (by decide)).2.2.2 2 Sig.sell 1 (by decide)

/-- C2 counterexample: on the empty price series the backtest evaluator
produces no PerformanceMetrics record at all; none models the IndexError
that iloc[-1] raises on the empty cumulative series at source line 49, so
the claimed zeroed record is never returned. -/
theorem C2_empty_input_counterexample :
    calculate_strategy_performance_metrics [] [] = none := rfl

/-- C2 amended: calling the backtest evaluator on an empty price series
raises (IndexError from iloc[-1] at source line 49) whatever the signal
series, instead of returning a PerformanceMetrics with zeroed fields; the
tool wrappers guard empty downloads before ever invoking it. -/
theorem C2_empty_input_amended (sigs : List Sig) :
    calculate_strategy_performance_metrics [] sigs = none := rfl

theorem pctChangeAux_replicate (m : ℕ) (c : ℚ) (hc : c ≠ 0) :
    pctChangeAux c (List.replicate m c) = List.replicate m (some 0) := by
  induction m with
  | zero => rfl
  | succ m ih =>
    rw [List.replicate_succ]
    simp only [pctChangeAux]
    rw [div_self hc, ih, List.replicate_succ]
    norm_num

theorem shift1Aux_all_some {α : Type} (l : List α) :
    ∀ (prev : α) (o : Option α), o ∈ shift1Aux prev l → o.isSome = true := by
  induction l with
  | nil => intro prev o ho; simp [shift1Aux] at ho
  | cons x xs ih =>
    intro prev o ho
    rcases List.mem_cons.mp ho with h | h
    · subst h; rfl
    · exact ih x o h

theorem zipWith_mulO_all_some (A : List (Option ℚ)) :
    ∀ m : ℕ, A.length = m → (∀ o ∈ A, o.isSome = true) →
      List.zipWith mulO A (List.replicate m (some 0)) = List.replicate m (some 0) := by
  induction A with
  | nil =>
    intro m hA h
    subst hA; rfl
  | cons a A ih =>
    intro m hA h
    subst hA
    rw [List.length_cons, List.replicate_succ, List.zipWith_cons_cons]
    obtain ⟨x, hx⟩ := Option.isSome_iff_exists.mp (h a (List.mem_cons_self a A))
    subst hx
    rw [ih A.length rfl (fun o ho => h o (List.mem_cons_of_mem _ ho))]
    simp [mulO, mul_zero]

theorem strategy_returns_flat (n : ℕ) (c : ℚ) (sigs : List Sig)
    (hlen : sigs.length = n) (hc : c ≠ 0) (hn : 0 < n) :
    strategy_returns (List.replicate n c) sigs
      = none :: List.replicate (n - 1) (some 0) := by
  cases n with
  | zero => omega
  | succ m =>
    cases sigs with
    | nil => simp at hlen
    | cons s0 rest =>
      have hrest : rest.length = m := by simpa using hlen
      rw [strategy_returns, List.replicate_succ]
      simp only [pct_change, pctChangeAux_replicate m c hc]
      simp only [positions, positionsAux, List.map_cons, shift1]
      rw [List.zipWith_cons_cons]
      have hA : (shift1Aux ((((rawPosition s0).getD 0 : ℤ) : ℚ))
          ((positionsAux ((rawPosition s0).getD 0) rest).map (fun z : ℤ => (z : ℚ)))).length = m := by
        rw [shift1Aux_length, List.length_map, positionsAux_length, hrest]
      rw [zipWith_mulO_all_some _ m hA (fun o ho => shift1Aux_all_some _ _ o ho)]
      rfl

theorem filterMap_id_replicate_some (m : ℕ) (x : ℚ) :
    (List.replicate m (some x)).filterMap id = List.replicate m x := by
  induction m with
  | zero => rfl
  | succ m ih => simp [List.replicate_succ, ih]

theorem svar_flat (m : ℕ) (hm : 2 ≤ m) :
    svarOpt (none :: List.replicate m (some (0 : ℚ))) = some 0 := by
  have hfm : ((none :: List.replicate m (some (0 : ℚ))).filterMap id)
      = List.replicate m (0 : ℚ) := by
    simp [filterMap_id_replicate_some]
  simp only [svarOpt, hfm]
  rw [if_neg (by simp; omega)]
  simp [List.sum_replicate, List.map_replicate]

theorem mean_flat (m : ℕ) (hm : 0 < m) :
    meanOpt (none :: List.replicate m (some (0 : ℚ))) = some 0 := by
  have hfm : ((none :: List.replicate m (some (0 : ℚ))).filterMap id)
      = List.replicate m (0 : ℚ) := by
    simp [filterMap_id_replicate_some]
  simp only [meanOpt, hfm]
  rw [if_neg (by simp; omega)]
  simp [List.sum_replicate]

theorem sharpe_zero_of_annVol_zero (l : List (Option ℚ)) (h : annVol l = some 0) :
    sharpeRatio l = 0 := by
  cases hm : meanOpt l with
  | none => simp [sharpeRatio, h, hm]
  | some m => simp [sharpeRatio, h, hm]

theorem svarOpt_some_imp_mean (l : List (Option ℚ)) (v : ℚ) (h : svarOpt l = some v) :
    meanOpt l = some ((l.filterMap id).sum / ((l.filterMap id).length : ℚ)) := by
  by_cases hl : (l.filterMap id).length < 2
  · simp only [svarOpt] at h
    rw [if_pos hl] at h
    cases h
  · simp only [meanOpt]
    rw [if_neg (by omega)]

theorem sharpe_formula_of_annVol_pos (l : List (Option ℚ)) (v : ℝ)
    (h : annVol l = some v) (hv : 0 < v) :
    ∃ m : ℚ, meanOpt l = some m ∧ sharpeRatio l = ((m : ℝ) * 252) / v := by
  cases hs : svarOpt l with
  | none => simp [annVol, hs] at h
  | some w =>
    have hm := svarOpt_some_imp_mean l w hs
    refine ⟨_, hm, ?_⟩
    simp only [sharpeRatio, h, hm]
    rw [if_pos hv]

theorem annVol_flat (n : ℕ) (c : ℚ) (sigs : List Sig)
    (hn : 3 ≤ n) (hc : 0 < c) (hlen : sigs.length = n) :
    annVol (strategy_returns (List.replicate n c) sigs) = some 0 := by
  rw [strategy_returns_flat n c sigs hlen (ne_of_gt hc) (by omega)]
  simp only [annVol]
  rw [svar_flat (n - 1) (by omega)]
  simp

/-- C4: the Sharpe ratio is mean(strategy_return) * 252 divided by the
annualized volatility whenever that volatility is positive, and it is 0
(never NaN or Inf) whenever the volatility is 0; in particular on a
constant-price series the strategy volatility is 0 and the Sharpe ratio
is 0. -/
theorem C4_sharpe_guard :
    (∀ l : List (Option ℚ), annVol l = some 0 → sharpeRatio l = 0)
    ∧ (∀ (l : List (Option ℚ)) (v : ℝ), annVol l = some v → 0 < v →
        ∃ m : ℚ, meanOpt l = some m ∧ sharpeRatio l = ((m : ℝ) * 252) / v)
    ∧ (∀ (n : ℕ) (c : ℚ) (sigs : List Sig), 3 ≤ n → 0 < c → sigs.length = n →
        annVol (strategy_returns (List.replicate n c) sigs) = some 0
        ∧ sharpeRatio (strategy_returns (List.replicate n c) sigs) = 0) :=
  ⟨sharpe_zero_of_annVol_zero,
   sharpe_formula_of_annVol_pos,
   fun n c sigs hn hc hlen =>
    ⟨annVol_flat n c sigs hn hc hlen,
     sharpe_zero_of_annVol_zero _ (annVol_flat n c sigs hn hc hlen)⟩⟩

/-- Witness for C4 on a flat three-bar series at price 100. -/
theorem C4_sharpe_guard_witness :
    annVol (strategy_returns (List.replicate 3 (100 : ℚ)) [Sig.hold, Sig.hold, Sig.hold])
        = some 0
    ∧ sharpeRatio (strategy_returns (List.replicate 3 (100 : ℚ)) [Sig.hold, Sig.hold, Sig.hold])
        = 0 :=
  C4_sharpe_guard.2.2 3 100 [Sig.hold, Sig.hold, Sig.hold] (by decide) (by decide) (by decide)

/-- C7: the consensus recommendation is BUY iff buy_count > sell_count and
buy_count >= 2, SELL iff sell_count > buy_count and sell_count >= 2, HOLD
otherwise; in particular three BUY votes against one SELL vote give BUY. -/
theorem C7_consensus (sigs : List String) :
    (recommendation sigs = Rec.recBuy ↔
      sigs.countP (fun s => s == sellStr) < sigs.countP (fun s => s == buyStr)
      ∧ 2 ≤ sigs.countP (fun s => s == buyStr))
    ∧ (recommendation sigs = Rec.recSell ↔
      sigs.countP (fun s => s == buyStr) < sigs.countP (fun s => s == sellStr)
      ∧ 2 ≤ sigs.countP (fun s => s == sellStr))
    ∧ (recommendation sigs = Rec.recHold ↔
      ¬(sigs.countP (fun s => s == sellStr) < sigs.countP (fun s => s == buyStr)
          ∧ 2 ≤ sigs.countP (fun s => s == buyStr))
      ∧ ¬(sigs.countP (fun s => s == buyStr) < sigs.countP (fun s => s == sellStr)
          ∧ 2 ≤ sigs.countP (fun s => s == sellStr)))
    ∧ recommendation [buyStr, buyStr, buyStr, sellStr] = Rec.recBuy := by
  refine ⟨?_, ?_, ?_, by decide⟩ <;>
    · simp only [recommendation]
      split_ifs with h1 h2 <;> simp <;> omega

theorem map_set {α β : Type} (f : α → β) (l : List α) :
    ∀ (i : ℕ) (v : α), (l.set i v).map f = (l.map f).set i (f v) := by
  induction l with
  | nil => intro i v; rfl
  | cons x xs ih =>
    intro i v
    cases i with
    | zero => rfl
    | succ i => simp [List.set, ih]

theorem countP_set_not (l : List String) :
    ∀ (i : ℕ) (v : String) (p : String → Bool), i < l.length → p v = false →
      (l.set i v).countP p = (l.eraseIdx i).countP p := by
  induction l with
  | nil => intro i v p h hp; simp at h
  | cons x xs ih =>
    intro i v p h hp
    cases i with
    | zero => simp [List.set, List.eraseIdx, List.countP_cons, hp]
    | succ i =>
      simp only [List.set, List.eraseIdx, List.countP_cons]
      rw [ih i v p (by simpa using h) hp]

/-- C9: in the comprehensive-analysis loop each strategy is dispatched in
its own protected iteration: replacing any one strategy outcome with a
raised execution leaves every other strategy signal unchanged, records
the string ERROR (not HOLD, not an absence) for the failed one, and the
HOLD tally afterwards counts exactly the HOLD signals of the remaining
strategies, never the failed one. -/
theorem C9_strategy_isolation (extract : String → String) (runs : List StratRun)
    (i : ℕ) (hi : i < runs.length) :
    (∀ j, j ≠ i →
      idx? (runAll extract (runs.set i failedRun)) j = idx? (runAll extract runs) j)
    ∧ idx? (runAll extract (runs.set i failedRun)) i = some errorStr
    ∧ stratSignal extract failedRun = errorStr
    ∧ holdTally (runAll extract (runs.set i failedRun))
        = holdTally ((runAll extract runs).eraseIdx i) := by
  refine ⟨?_, ?_, rfl, ?_⟩
  · intro j hj
    simp only [runAll]
    rw [idx?_map, idx?_map, idx?_set_ne _ _ _ _ hj]
  · simp only [runAll]
    rw [idx?_map, idx?_set_self _ _ _ hi]
    rfl
  · simp only [runAll, holdTally]
    rw [map_set]
    exact countP_set_not (runs.map (stratSignal extract)) i (stratSignal extract failedRun)
      (fun s => s == holdStr) (by rw [List.length_map]; exact hi) (by rfl)

/-- Witness for C9: with the first of two strategy outcomes replaced by a
raised execution, the aggregator records ERROR for it. -/
theorem C9_strategy_isolation_witness :
    idx? (runAll (fun _ => holdStr)
        (([some (Except.ok holdStr), some (Except.ok holdStr)] : List StratRun).set 0 failedRun)) 0
      = some errorStr :=
  (C9_strategy_isolation (fun _ => holdStr)
    [some (Except.ok holdStr), some (Except.ok holdStr)] 0 (by decide)).2.1

theorem gtO_eq_true_iff (a b : Option ℚ) :
    gtO a b = true ↔ ∃ x y, a = some x ∧ b = some y ∧ y < x := by
  cases a <;> cases b <;> simp [gtO]

theorem leO_eq_true_iff (a b : Option ℚ) :
    leO a b = true ↔ ∃ x y, a = some x ∧ b = some y ∧ x ≤ y := by
  cases a <;> cases b <;> simp [leO]

theorem ltO_eq_true_iff (a b : Option ℚ) :
    ltO a b = true ↔ ∃ x y, a = some x ∧ b = some y ∧ x < y := by
  cases a <;> cases b <;> simp [ltO]

theorem geO_eq_true_iff (a b : Option ℚ) :
    geO a b = true ↔ ∃ x y, a = some x ∧ b = some y ∧ y ≤ x := by
  cases a <;> cases b <;> simp [geO]

/-- C10: for a non-empty price series the Dual MA report's current signal
is BUY exactly when the last short MA exceeds the last long MA and SELL
in every other situation (including NaN moving averages); it is never
HOLD, so the Dual MA strategy always casts a directional vote. -/
theorem C10_dma_directional (closes : List ℚ) (sp lp : ℕ) (mt : String)
    (h : closes ≠ []) :
    dmaCurrentSignal closes sp lp mt ≠ Sig.hold
    ∧ (dmaCurrentSignal closes sp lp mt = Sig.buy ↔
        ∃ a b, lastO (maList mt closes sp) = some a
          ∧ lastO (maList mt closes lp) = some b ∧ b < a)
    ∧ (dmaCurrentSignal closes sp lp mt = Sig.sell ↔
        ¬ ∃ a b, lastO (maList mt closes sp) = some a
          ∧ lastO (maList mt closes lp) = some b ∧ b < a) := by
  have hiff := gtO_eq_true_iff (lastO (maList mt closes sp)) (lastO (maList mt closes lp))
  simp only [dmaCurrentSignal]
  by_cases hg : gtO (lastO (maList mt closes sp)) (lastO (maList mt closes lp)) = true
  · rw [if_pos hg]
    have hp := hiff.mp hg
    exact ⟨by simp, ⟨fun _ => hp, fun _ => rfl⟩,
      ⟨fun hEq => Sig.noConfusion hEq, fun hnp => absurd hp hnp⟩⟩
  · rw [if_neg hg]
    rw [hiff] at hg
    exact ⟨by simp, ⟨fun hEq => Sig.noConfusion hEq, fun hp2 => absurd hp2 hg⟩,
      ⟨fun _ => hg, fun _ => rfl⟩⟩

/-- Witness for C10 on a one-bar series: the current Dual MA signal is
directional (not HOLD). -/
theorem C10_dma_directional_witness :
    dmaCurrentSignal [100] 2 5 smaStr ≠ Sig.hold :=
  (C10_dma_directional [100] 2 5 smaStr (by decide)).1

theorem filterMap_id_pctChangeAux (l : List ℚ) :
    ∀ prev : ℚ, (pctChangeAux prev l).filterMap id = specTradeReturnsAux prev l := by
  induction l with
  | nil => intro prev; rfl
  | cons x xs ih => intro prev; simp [pctChangeAux, specTradeReturnsAux, ih]

theorem filterMap_id_pct_change (l : List ℚ) :
    (pct_change l).filterMap id = specTradeReturns l := by
  cases l with
  | nil => rfl
  | cons x xs => simp [pct_change, specTradeReturns, filterMap_id_pctChangeAux]

theorem specTradeReturnsAux_length (l : List ℚ) :
    ∀ prev : ℚ, (specTradeReturnsAux prev l).length = l.length := by
  induction l with
  | nil => intro prev; rfl
  | cons x xs ih => intro prev; simpa [specTradeReturnsAux] using ih _

theorem specTradeReturns_length (l : List ℚ) :
    (specTradeReturns l).length = l.length - 1 := by
  cases l with
  | nil => rfl
  | cons x xs => simpa [specTradeReturns] using specTradeReturnsAux_length xs x

theorem tradeCloses_cons (c : ℚ) (cs : List ℚ) (s : Sig) (ss : List Sig) :
    tradeCloses (c :: cs) (s :: ss)
      = if isTrade s then c :: tradeCloses cs ss else tradeCloses cs ss := by
  simp only [tradeCloses, List.zip_cons_cons, List.filterMap_cons]
  by_cases hs : isTrade s <;> simp [hs]

theorem tradeCloses_length (closes : List ℚ) :
    ∀ sigs : List Sig, sigs.length = closes.length →
      (tradeCloses closes sigs).length = sigs.countP isTrade := by
  induction closes with
  | nil =>
    intro sigs h
    cases sigs with
    | nil => rfl
    | cons s ss => simp at h
  | cons c cs ih =>
    intro sigs h
    cases sigs with
    | nil => simp at h
    | cons s ss =>
      rw [tradeCloses_cons, List.countP_cons]
      by_cases hs : isTrade s
      · rw [if_pos hs, List.length_cons, ih ss (by simpa using h)]
        simp [hs]
      · rw [if_neg hs, ih ss (by simpa using h)]
        simp [hs]

theorem meanOpt_pct_change (l : List ℚ) (h : 2 ≤ l.length) :
    meanOpt (pct_change l)
      = some ((specTradeReturns l).sum / ((l.length - 1 : ℕ) : ℚ)) := by
  simp only [meanOpt, filterMap_id_pct_change, specTradeReturns_length]
  rw [if_neg (by omega)]

/-- C8: the trade statistics run over exactly the BUY/SELL rows: the trade
row count is the number of signals in {BUY, SELL}; with at least two
trade rows, total_trades is that count minus one, win_rate is the number
of positive consecutive trade returns close[i]/close[i-1] - 1 over that
count minus one, and avg_trade_return is the mean of those returns; with
fewer than two trade rows all three statistics are zero. -/
theorem C8_trade_statistics (closes : List ℚ) (sigs : List Sig)
    (hlen : sigs.length = closes.length) :
    (tradeCloses closes sigs).length = sigs.countP isTrade
    ∧ (2 ≤ (tradeCloses closes sigs).length →
        tradeStats closes sigs
          = (((specTradeReturns (tradeCloses closes sigs)).countP
                  (fun r => decide (0 < r)) : ℚ)
                / (((tradeCloses closes sigs).length - 1 : ℕ) : ℚ),
             (tradeCloses closes sigs).length - 1,
             (specTradeReturns (tradeCloses closes sigs)).sum
                / (((tradeCloses closes sigs).length - 1 : ℕ) : ℚ)))
    ∧ ((tradeCloses closes sigs).length < 2 → tradeStats closes sigs = (0, 0, 0)) := by
  refine ⟨tradeCloses_length closes sigs hlen, ?_, ?_⟩
  · intro h2
    simp only [tradeStats]
    rw [if_pos (by omega), if_pos (by omega)]
    rw [filterMap_id_pct_change, meanOpt_pct_change _ h2]
    rfl
  · intro h2
    simp only [tradeStats]
    rw [if_neg (by omega)]

/-- Witness for C8 on four bars with trade rows 0, 2 and 3. -/
theorem C8_trade_statistics_witness :
    tradeStats [100, 110, 99, 120] [Sig.buy, Sig.hold, Sig.sell, Sig.buy]
      = (((specTradeReturns
              (tradeCloses [100, 110, 99, 120] [Sig.buy, Sig.hold, Sig.sell, Sig.buy])).countP
                (fun r => decide (0 < r)) : ℚ)
            / (((tradeCloses [100, 110, 99, 120]
                  [Sig.buy, Sig.hold, Sig.sell, Sig.buy]).length - 1 : ℕ) : ℚ),
         (tradeCloses [100, 110, 99, 120] [Sig.buy, Sig.hold, Sig.sell, Sig.buy]).length - 1,
         (specTradeReturns
              (tradeCloses [100, 110, 99, 120] [Sig.buy, Sig.hold, Sig.sell, Sig.buy])).sum
            / (((tradeCloses [100, 110, 99, 120]
                  [Sig.buy, Sig.hold, Sig.sell, Sig.buy]).length - 1 : ℕ) : ℚ)) :=
  (C8_trade_statistics [100, 110, 99, 120] [Sig.buy, Sig.hold, Sig.sell, Sig.buy]
    (by decide)).2.1 (by decide)

/-- C5 counterexample: on a flat four-bar series with rsi_period 3, bar 2
has rolling average loss 0 (and average gain 0), and the RSI there is NaN
(rs = 0/0), not 100. -/
theorem C5_rsi_zero_loss_counterexample :
    idx? (avg_loss [100, 100, 100, 100] 3) 2 = some (some 0)
    ∧ idx? (price_rsi [100, 100, 100, 100] 3) 2 = some FVal.nan
    ∧ (FVal.nan : FVal ℚ) ≠ FVal.fin 100 := by
  have hloss : idx? (avg_loss [100, 100, 100, 100] 3) 2 = some (some 0) := by
    norm_num [avg_loss, losses, diffList, diffAux, rollingMean, windowAt,
      List.range_succ, idx?]
  have hgain : idx? (avg_gain [100, 100, 100, 100] 3) 2 = some (some 0) := by
    norm_num [avg_gain, gains, diffList, diffAux, rollingMean, windowAt,
      List.range_succ, idx?]
  refine ⟨hloss, ?_, by simp⟩
  simp only [price_rsi, idx?_zipWith, hgain, hloss]
  simp [FVal.div, FVal.add, FVal.sub, FVal.neg]

/-- C5 amended: the RSI primitive is built from simple rolling means of
the positive and negative deltas (not Wilder smoothing), and at a bar
whose rolling average loss is 0 the RSI is 100 exactly when the rolling
average gain is positive (rs = +inf); when the average gain is also 0
(flat window) the RSI at that bar is NaN, not 100. -/
theorem C5_rsi_zero_loss (l : List ℚ) (p t : ℕ) (g : ℚ)
    (hg : idx? (avg_gain l p) t = some (some g))
    (hl : idx? (avg_loss l p) t = some (some 0)) :
    (0 < g → idx? (price_rsi l p) t = some (FVal.fin 100))
    ∧ (g = 0 → idx? (price_rsi l p) t = some FVal.nan) := by
  constructor
  · intro hpos
    simp only [price_rsi, idx?_zipWith, hg, hl]
    simp [FVal.div, FVal.add, FVal.sub, FVal.neg, hpos, hpos.ne']
  · intro hzero
    subst hzero
    simp only [price_rsi, idx?_zipWith, hg, hl]
    simp [FVal.div, FVal.add, FVal.sub, FVal.neg]

/-- Witness for the C5 amendment: on a rising four-bar series the bar with
average loss 0 and average gain 1 has RSI exactly 100. -/
theorem C5_rsi_zero_loss_witness :
    idx? (price_rsi [100, 101, 102, 103] 3) 3 = some (FVal.fin 100) :=
  (C5_rsi_zero_loss [100, 101, 102, 103] 3 3 1
    (by norm_num [avg_gain, gains, diffList, diffAux, rollingMean, windowAt,
      List.range_succ, idx?])
    (by norm_num [avg_loss, losses, diffList, diffAux, rollingMean, windowAt,
      List.range_succ, idx?])).1 (by norm_num)

theorem windowAt_replicate (n : ℕ) (c : ℚ) (w t : ℕ)
    (hwt : w ≤ t + 1) (ht : t < n) :
    windowAt (List.replicate n c) w t = List.replicate w c := by
  rw [windowAt, List.drop_replicate, List.take_replicate]
  congr 1
  omega

theorem rollingMean_replicate (n : ℕ) (c : ℚ) (w t : ℕ)
    (hw : 1 ≤ w) (hwt : w ≤ t + 1) (ht : t < n) :
    idx? (rollingMean (List.replicate n c) w) t = some (some c) := by
  have hw0 : (w : ℚ) ≠ 0 := Nat.cast_ne_zero.mpr (by omega)
  simp only [rollingMean, List.length_replicate]
  rw [idx?_range_map, if_pos ht, if_pos hwt, windowAt_replicate n c w t hwt ht,
    List.sum_replicate, nsmul_eq_mul, mul_div_cancel_left₀ c hw0]

theorem rollingVar_replicate (n : ℕ) (c : ℚ) (w t : ℕ)
    (hw : 2 ≤ w) (hwt : w ≤ t + 1) (ht : t < n) :
    idx? (rollingVar (List.replicate n c) w) t = some (some 0) := by
  have hw0 : (w : ℚ) ≠ 0 := Nat.cast_ne_zero.mpr (by omega)
  simp only [rollingVar, List.length_replicate]
  rw [idx?_range_map, if_pos ht, if_pos ⟨hwt, hw⟩, windowAt_replicate n c w t hwt ht,
    List.sum_replicate, nsmul_eq_mul, mul_div_cancel_left₀ c hw0]
  simp [List.map_replicate, List.sum_replicate]

theorem rollingMean_warmup (l : List ℚ) (w t : ℕ)
    (hwt : ¬ w ≤ t + 1) (ht : t < l.length) :
    idx? (rollingMean l w) t = some none := by
  simp only [rollingMean]
  rw [idx?_range_map, if_pos ht, if_neg hwt]

theorem rollingVar_not_full (l : List ℚ) (w t : ℕ)
    (hcond : ¬ (w ≤ t + 1 ∧ 2 ≤ w)) (ht : t < l.length) :
    idx? (rollingVar l w) t = some none := by
  simp only [rollingVar]
  rw [idx?_range_map, if_pos ht, if_neg hcond]

theorem bollingerStd_replicate (n : ℕ) (c : ℚ) (w t : ℕ)
    (hw : 2 ≤ w) (hwt : w ≤ t + 1) (ht : t < n) :
    idx? (bollingerStd (List.replicate n c) w) t = some (some 0) := by
  simp only [bollingerStd]
  rw [idx?_map, rollingVar_replicate n c w t hw hwt ht]
  simp

theorem upper_band_replicate (n : ℕ) (c : ℚ) (w : ℕ) (ns : ℚ) (t : ℕ)
    (hw : 2 ≤ w) (hwt : w ≤ t + 1) (ht : t < n) :
    idx? (upper_band (List.replicate n c) w ns) t = some (some ((c : ℝ))) := by
  simp only [upper_band]
  rw [idx?_zipWith, rollingMean_replicate n c w t (by omega) hwt ht,
    bollingerStd_replicate n c w t hw hwt ht]
  simp

theorem lower_band_replicate (n : ℕ) (c : ℚ) (w : ℕ) (ns : ℚ) (t : ℕ)
    (hw : 2 ≤ w) (hwt : w ≤ t + 1) (ht : t < n) :
    idx? (lower_band (List.replicate n c) w ns) t = some (some ((c : ℝ))) := by
  simp only [lower_band]
  rw [idx?_zipWith, rollingMean_replicate n c w t (by omega) hwt ht,
    bollingerStd_replicate n c w t hw hwt ht]
  simp

theorem upper_band_warmup (l : List ℚ) (w : ℕ) (ns : ℚ) (t : ℕ)
    (hwt : ¬ w ≤ t + 1) (ht : t < l.length) :
    idx? (upper_band l w ns) t = some none := by
  simp only [upper_band, bollingerStd]
  rw [idx?_zipWith, rollingMean_warmup l w t hwt ht, idx?_map,
    rollingVar_not_full l w t (by tauto) ht]
  simp

theorem lower_band_warmup (l : List ℚ) (w : ℕ) (ns : ℚ) (t : ℕ)
    (hwt : ¬ w ≤ t + 1) (ht : t < l.length) :
    idx? (lower_band l w ns) t = some none := by
  simp only [lower_band, bollingerStd]
  rw [idx?_zipWith, rollingMean_warmup l w t hwt ht, idx?_map,
    rollingVar_not_full l w t (by tauto) ht]
  simp

theorem percent_b_flat (n : ℕ) (c : ℚ) (w : ℕ) (ns : ℚ) (t : ℕ)
    (hw : 2 ≤ w) (ht : t < n) :
    idx? (percent_b (List.replicate n c) w ns) t = some FVal.nan := by
  simp only [percent_b, List.length_replicate]
  rw [idx?_range_map, if_pos ht]
  by_cases hwt : w ≤ t + 1
  · simp only [getD_eq_idx?]
    rw [lower_band_replicate n c w ns t hw hwt ht,
      upper_band_replicate n c w ns t hw hwt ht, idx?_replicate, if_pos ht]
    simp [FVal.div]
  · simp only [getD_eq_idx?]
    rw [lower_band_warmup _ w ns t hwt (by simpa using ht),
      upper_band_warmup _ w ns t hwt (by simpa using ht)]
    simp

theorem bb_score_flat (n : ℕ) (c : ℚ) (w : ℕ) (ns : ℚ) (t : ℕ)
    (hw : 2 ≤ w) (ht : t < n) :
    idx? (bb_score (List.replicate n c) w ns) t = some FVal.nan := by
  simp only [bb_score]
  rw [idx?_map, percent_b_flat n c w ns t hw ht]
  simp [FVal.mul, FVal.sub, FVal.add, FVal.neg]

theorem bbSignals_flat (n : ℕ) (c : ℚ) (w : ℕ) (ns : ℚ) (t : ℕ)
    (hw : 2 ≤ w) (ht : t < n) :
    idx? (bbSignals (List.replicate n c) w ns) t = some Sig.hold := by
  simp only [bbSignals]
  rw [idx?_map, bb_score_flat n c w ns t hw ht]
  simp [FVal.gtv, FVal.ltv]

theorem getLastD_of_idx? {α : Type} (l : List α) :
    ∀ (d v : α), idx? l (l.length - 1) = some v → l.getLastD d = v := by
  induction l with
  | nil => intro d v h; cases h
  | cons x xs ih =>
    intro d v h
    cases xs with
    | nil =>
      simp only [idx?] at h
      cases h
      rfl
    | cons y ys =>
      apply ih x v
      simpa [idx?] using h

theorem percent_b_length (closes : List ℚ) (w : ℕ) (ns : ℚ) :
    (percent_b closes w ns).length = closes.length := by
  simp [percent_b]

theorem bb_score_length (closes : List ℚ) (w : ℕ) (ns : ℚ) :
    (bb_score closes w ns).length = closes.length := by
  simp [bb_score, percent_b_length]

/-- C3 amended: on a perfectly flat price series (rolling std 0 on every
full window) the Bollinger-Fibonacci generator raises nothing, but
percent_b is NaN on every row (0/0, and NaN during warm-up), never 0.5,
and the score is NaN, never 0; every row's signal cell stays unset
(HOLD).  Only the current-status display of the report substitutes 0.5
for a NaN last percent_b and 0 for a NaN last score, and reports HOLD. -/
theorem C3_flat_bollinger (n : ℕ) (c : ℚ) (w : ℕ) (ns : ℚ) (hw : 2 ≤ w) :
    (∀ t, t < n →
      idx? (percent_b (List.replicate n c) w ns) t = some FVal.nan
      ∧ idx? (bb_score (List.replicate n c) w ns) t = some FVal.nan
      ∧ idx? (bbSignals (List.replicate n c) w ns) t = some Sig.hold)
    ∧ (0 < n →
      current_percent_b (List.replicate n c) w ns = FVal.fin (1 / 2)
      ∧ current_bb_score (List.replicate n c) w ns = FVal.fin 0
      ∧ bbCurrentSignal (List.replicate n c) w ns = Sig.hold) := by
  refine ⟨fun t ht => ⟨percent_b_flat n c w ns t hw ht,
    bb_score_flat n c w ns t hw ht, bbSignals_flat n c w ns t hw ht⟩, ?_⟩
  intro hn
  have h1 : (percent_b (List.replicate n c) w ns).getLastD FVal.nan = FVal.nan := by
    apply getLastD_of_idx?
    rw [percent_b_length, List.length_replicate]
    exact percent_b_flat n c w ns (n - 1) hw (by omega)
  have h2 : (bb_score (List.replicate n c) w ns).getLastD FVal.nan = FVal.nan := by
    apply getLastD_of_idx?
    rw [bb_score_length, List.length_replicate]
    exact bb_score_flat n c w ns (n - 1) hw (by omega)
  have hcpb : current_percent_b (List.replicate n c) w ns = FVal.fin (1 / 2) := by
    simp only [current_percent_b]
    rw [h1]
  have hcbs : current_bb_score (List.replicate n c) w ns = FVal.fin 0 := by
    simp only [current_bb_score]
    rw [h2]
  refine ⟨hcpb, hcbs, ?_⟩
  simp only [bbCurrentSignal, hcbs]
  norm_num [FVal.gtv, FVal.ltv]

/-- C3 counterexample: on a flat 21-bar series at price 100 with window 20
and num_std 2 the bands coincide at bar 20, yet percent_b there is NaN
(not 0.5) and the score is NaN (not 0). -/
theorem C3_flat_bollinger_counterexample :
    idx? (percent_b (List.replicate 21 (100 : ℚ)) 20 2) 20 = some FVal.nan
    ∧ (FVal.nan : FVal ℝ) ≠ FVal.fin (1 / 2)
    ∧ idx? (bb_score (List.replicate 21 (100 : ℚ)) 20 2) 20 = some FVal.nan
    ∧ (FVal.nan : FVal ℝ) ≠ FVal.fin 0 :=
  ⟨percent_b_flat 21 100 20 2 20 (by norm_num) (by norm_num), by simp,
   bb_score_flat 21 100 20 2 20 (by norm_num) (by norm_num), by simp⟩

/-- Witness for the C3 amendment on the flat 21-bar series: every signal
row stays HOLD and the reported current signal is HOLD. -/
theorem C3_flat_bollinger_witness :
    idx? (bbSignals (List.replicate 21 (100 : ℚ)) 20 2) 20 = some Sig.hold
    ∧ bbCurrentSignal (List.replicate 21 (100 : ℚ)) 20 2 = Sig.hold :=
  ⟨((C3_flat_bollinger 21 100 20 2 (by norm_num)).1 20 (by norm_num)).2.2,
   ((C3_flat_bollinger 21 100 20 2 (by norm_num)).2 (by norm_num)).2.2⟩

theorem maList_sma (closes : List ℚ) (p : ℕ) :
    maList smaStr closes p = rollingMean closes p := by
  simp only [maList]
  rw [if_neg (by decide)]

theorem dmaSignalAt_eq (closes : List ℚ) (sp lp : ℕ) (mt : String) (t : ℕ)
    (ht : t < closes.length) :
    idx? (dmaSignals closes sp lp mt) t = some (
      if gtO ((maList mt closes sp).getD t none) ((maList mt closes lp).getD t none)
          && leO (if t = 0 then none else (maList mt closes sp).getD (t - 1) none)
            (if t = 0 then none else (maList mt closes lp).getD (t - 1) none) then
        Sig.buy
      else if ltO ((maList mt closes sp).getD t none) ((maList mt closes lp).getD t none)
          && geO (if t = 0 then none else (maList mt closes sp).getD (t - 1) none)
            (if t = 0 then none else (maList mt closes lp).getD (t - 1) none) then
        Sig.sell
      else Sig.hold) := by
  simp only [dmaSignals]
  rw [idx?_range_map, if_pos ht]

theorem ite_sig_eq_buy (g d : Bool) :
    (if g then Sig.buy else if d then Sig.sell else Sig.hold) = Sig.buy ↔ g = true := by
  cases g <;> cases d <;> simp

theorem ite_sig_eq_sell (g d : Bool) (h : d = true → g = false) :
    (if g then Sig.buy else if d then Sig.sell else Sig.hold) = Sig.sell ↔ d = true := by
  cases g <;> cases d <;> simp_all

theorem gtO_false_of_ltO (a b : Option ℚ) (h : ltO a b = true) : gtO a b = false := by
  obtain ⟨x, y, hx, hy, hxy⟩ := (ltO_eq_true_iff a b).mp h
  subst hx; subst hy
  simp only [gtO, decide_eq_false_iff_not]
  exact not_lt.mpr hxy.le

/-- C6: the Dual MA generator emits BUY at bar t exactly on a golden cross
(short MA above long MA at t, short at most long at t-1, all four values
present) and SELL exactly on the mirrored death cross; in the Scenario B
series [10,9,8,7,6,7,8,9,10,11,12] with short period 2, long period 5 and
SMA, exactly one golden cross fires, at bar 6 in the rising segment, and
no other bar carries a signal. -/
theorem C6_dual_ma_cross :
    (∀ (closes : List ℚ) (sp lp : ℕ) (mt : String) (t : ℕ),
      (idx? (dmaSignals closes sp lp mt) t = some Sig.buy ↔
        t < closes.length ∧ 0 < t
        ∧ (∃ a b, (maList mt closes sp).getD t none = some a
            ∧ (maList mt closes lp).getD t none = some b ∧ b < a)
        ∧ (∃ a b, (maList mt closes sp).getD (t - 1) none = some a
            ∧ (maList mt closes lp).getD (t - 1) none = some b ∧ a ≤ b))
      ∧ (idx? (dmaSignals closes sp lp mt) t = some Sig.sell ↔
        t < closes.length ∧ 0 < t
        ∧ (∃ a b, (maList mt closes sp).getD t none = some a
            ∧ (maList mt closes lp).getD t none = some b ∧ a < b)
        ∧ (∃ a b, (maList mt closes sp).getD (t - 1) none = some a
            ∧ (maList mt closes lp).getD (t - 1) none = some b ∧ b ≤ a)))
    ∧ dmaSignals [10, 9, 8, 7, 6, 7, 8, 9, 10, 11, 12] 2 5 smaStr
        = [Sig.hold, Sig.hold, Sig.hold, Sig.hold, Sig.hold, Sig.hold, Sig.buy,
           Sig.hold, Sig.hold, Sig.hold, Sig.hold] := by
  constructor
  · intro closes sp lp mt t
    by_cases ht : t < closes.length
    · cases t with
      | zero =>
        rw [dmaSignalAt_eq closes sp lp mt 0 ht]
        simp [leO, geO]
      | succ k =>
        rw [dmaSignalAt_eq closes sp lp mt (k + 1) ht]
        constructor
        · rw [Option.some_inj, ite_sig_eq_buy, Bool.and_eq_true,
            gtO_eq_true_iff, leO_eq_true_iff]
          constructor
          · rintro ⟨h1, h2⟩
            exact ⟨ht, Nat.succ_pos k, h1, h2⟩
          · rintro ⟨-, -, h1, h2⟩
            exact ⟨h1, h2⟩
        · have himp :
              (ltO ((maList mt closes sp).getD (k + 1) none)
                  ((maList mt closes lp).getD (k + 1) none)
                && geO (if k + 1 = 0 then none else (maList mt closes sp).getD (k + 1 - 1) none)
                  (if k + 1 = 0 then none else (maList mt closes lp).getD (k + 1 - 1) none)) = true →
              (gtO ((maList mt closes sp).getD (k + 1) none)
                  ((maList mt closes lp).getD (k + 1) none)
                && leO (if k + 1 = 0 then none else (maList mt closes sp).getD (k + 1 - 1) none)
                  (if k + 1 = 0 then none else (maList mt closes lp).getD (k + 1 - 1) none)) = false := by
            intro hd
            rw [Bool.and_eq_true] at hd
            rw [gtO_false_of_ltO _ _ hd.1, Bool.false_and]
          rw [Option.some_inj, ite_sig_eq_sell _ _ himp, Bool.and_eq_true,
            ltO_eq_true_iff, geO_eq_true_iff]
          constructor
          · rintro ⟨h1, h2⟩
            exact ⟨ht, Nat.succ_pos k, h1, h2⟩
          · rintro ⟨-, -, h1, h2⟩
            exact ⟨h1, h2⟩
    · have hnone : idx? (dmaSignals closes sp lp mt) t = none := by
        apply idx?_eq_none
        simp only [dmaSignals, List.length_map, List.length_range]
        omega
      rw [hnone]
      exact ⟨⟨fun h => Option.noConfusion h, fun h => absurd h.1 ht⟩,
        ⟨fun h => Option.noConfusion h, fun h => absurd h.1 ht⟩⟩
  · simp only [dmaSignals, maList_sma]
    norm_num [rollingMean, windowAt, List.range_succ, gtO, leO, ltO, geO, List.getD]
